import Mathlib

/-!
Verification of the time-series aggregation core of the netzbremse
speedtest dashboard (source files `app/app.py`, `app/charts.py`,
`app/components.py`).

Modelling conventions: timestamps are integers (seconds on the display
timezone clock), metric values are rationals.  A pandas `NaN` cell of a
metric column is modelled as `none`; a dataframe is a list of rows.
-/

namespace Netzbremse

/-- A measurement row as consumed by `components.render_latest_summary`:
the four metric columns may hold missing (`NaN`) cells. -/
structure Row where
  timestamp : Int
  download : Option ℚ
  upload : Option ℚ
  latency : Option ℚ
  jitter : Option ℚ
  deriving Repr, DecidableEq

/-- A chart-layer row after the caller has selected one metric column
(`charts.py` addresses a single `metric_key` column per chart): the two
grouping keys plus the selected metric's cell. -/
structure MRow where
  timestamp : Int
  endpoint : String
  value : ℚ
  deriving Repr, DecidableEq

/-- Arithmetic mean of a column with no missing cells (`Series.mean`).
`0` on the empty list, which no caller below reaches. -/
def meanQ (vs : List ℚ) : ℚ := vs.sum / vs.length

/-- `DataFrame.mean` on one metric column: pandas skips `NaN` cells and
yields `NaN` when no cell remains. -/
def meanOpt (vs : List (Option ℚ)) : Option ℚ :=
  let present := vs.filterMap id
  if present.isEmpty then none else some (meanQ present)

/-- The Window Clamper of `app.py`: clamp the requested instants to the
data range, then validate `clamped_start < clamped_end`.  Returns
`(clamped_s, clamped_e, valid)`. -/
def clampWindow (min_t max_t req_s req_e : Int) : Int × Int × Bool :=
  let clamped_s := max req_s min_t
  let clamped_e := min req_e max_t
  (clamped_s, clamped_e, decide (clamped_s < clamped_e))

/-- The chart-window filter building `chart_df` in `app.py`:
`(df["timestamp"] >= start) & (df["timestamp"] <= end)`. -/
def chart_df (df : List MRow) (start_t end_t : Int) : List MRow :=
  df.filter fun r => decide (start_t ≤ r.timestamp ∧ r.timestamp ≤ end_t)

/-- `charts.MAGENTA_PALETTE`. -/
def MAGENTA_PALETTE : List String :=
  ["#f8bbd9", "#f48fb1", "#f06292", "#ec407a", "#e91e63",
   "#d81b60", "#c2185b", "#ad1457", "#880e4f", "#6a1b4d"]

/-- `charts._get_endpoint_color_scale`: the ordered list of colors paired
positionally with the `endpoints` domain of the resulting scale. -/
def endpointColors (endpoints : List String) : List String :=
  if endpoints.length ≤ MAGENTA_PALETTE.length then
    MAGENTA_PALETTE.take endpoints.length
  else
    (List.range endpoints.length).map
      fun i => MAGENTA_PALETTE.getD (i % MAGENTA_PALETTE.length) ""

/-- Characters `urllib.parse` accepts after the first character of a URL
scheme. -/
def isSchemeChar (c : Char) : Bool :=
  c.isAlpha || c.isDigit || c = '+' || c = '-' || c = '.'

/-- Split a leading `scheme:` prefix off a URL the way
`urllib.parse.urlsplit` does: the part before the first `:` counts as a
scheme when it is nonempty, starts with a letter and continues with
letters, digits, `+`, `-` or `.`; the remainder is returned (the scheme
itself is never used by the dashboard). -/
def dropScheme (s : List Char) : List Char :=
  match s.findIdx? (· = ':') with
  | none => s
  | some i =>
    let pre := s.take i
    if !pre.isEmpty && (pre.headD 'a').isAlpha && (pre.drop 1).all isSchemeChar
    then s.drop (i + 1) else s

/-- `urllib.parse.urlsplit(url).netloc`: the netloc is present exactly
when the remainder after the scheme starts with `//`, extending to the
next `/`, `?` or `#`.  `urlsplit` raises `ValueError("Invalid IPv6 URL")`
when that netloc holds a `[` without a `]` or a `]` without a `[`;
the raise is modelled as `none`. -/
def urlNetloc (url : String) : Option String :=
  match dropScheme url.toList with
  | '/' :: '/' :: t =>
    let netloc := t.takeWhile fun c => !(c == '/') && !(c == '?') && !(c == '#')
    if (netloc.contains '[' && !(netloc.contains ']')) ||
        (netloc.contains ']' && !(netloc.contains '[')) then none
    else some (String.mk netloc)
  | _ => some ""

/-- `hostname.split(".")[0]`: the prefix of the string before its first
`.` (the whole string when it holds no dot, empty on the empty string,
exactly as in python). -/
def firstDotSegment (s : String) : String :=
  String.mk (s.toList.takeWhile fun c => !(c == '.'))

/-- `charts._shorten_endpoint`: when `urlparse` raises, the `except`
branch returns the raw string; otherwise `hostname = parsed.netloc or
url`, then the first dot-separated segment of `hostname`, with the raw
string as fallback when that segment is empty. -/
def shorten_endpoint (url : String) : String :=
  match urlNetloc url with
  | none => url
  | some netloc =>
    let hostname := if netloc = "" then url else netloc
    let first_part := firstDotSegment hostname
    if first_part = "" then url else first_part

/-- The `timestamp` order used by `df.sort_values("timestamp")`. -/
def tsLE (a b : Row) : Prop := a.timestamp ≤ b.timestamp

instance : DecidableRel tsLE :=
  fun a b => inferInstanceAs (Decidable (a.timestamp ≤ b.timestamp))

instance : IsTotal Row tsLE := ⟨fun a b => Int.le_total a.timestamp b.timestamp⟩

instance : IsTrans Row tsLE := ⟨fun _ _ _ h h2 => le_trans h h2⟩

/-- `df.sort_values("timestamp")`: sort the measurement set ascending by
timestamp. -/
def sortRows (df : List Row) : List Row := df.insertionSort tsLE

/-- `run_size = min(max(run_size, 1), len(df_sorted))`. -/
def clampRun (run_size len : Nat) : Nat := min (max run_size 1) len

/-- `latest_run = df_sorted.iloc[-run_size:]`: the last `n` rows of the
sorted set, `n` being the clamped run size. -/
def latestRun (df : List Row) (run_size : Nat) : List Row :=
  (sortRows df).drop
    ((sortRows df).length - clampRun run_size (sortRows df).length)

/-- `latest_run["timestamp"].max()`. -/
def maxTs : List Row → Int
  | [] => 0
  | r :: rs => rs.foldl (fun m x => max m x.timestamp) r.timestamp

/-- The representative time of the latest run. -/
def latestTimestamp (df : List Row) (run_size : Nat) : Int :=
  maxTs (latestRun df run_size)

/-- `previous_run = df_sorted.iloc[-(run_size*2):-run_size] if
len(df_sorted) >= run_size*2 else pd.DataFrame()`. -/
def previousRun (df : List Row) (run_size : Nat) : List Row :=
  if 2 * clampRun run_size (sortRows df).length ≤ (sortRows df).length then
    ((sortRows df).drop
        ((sortRows df).length - 2 * clampRun run_size (sortRows df).length)).take
      (clampRun run_size (sortRows df).length)
  else []

/-- Mean of one metric column over a slice of rows
(`slice.mean(numeric_only=True)` queried at one key). -/
def sliceMean (rows : List Row) (metric : Row → Option ℚ) : Option ℚ :=
  meanOpt (rows.map metric)

/-- `components._percent_diff` for one metric key, as an optional value:
`none` is the "no comparison" outcome (the python function returns
`None`), `some v` means the function returns the formatted string of the
percentage `v`. -/
def percent_diff (df : List Row) (run_size : Nat) (metric : Row → Option ℚ) :
    Option ℚ :=
  if (previousRun df run_size).isEmpty then none
  else
    match sliceMean (previousRun df run_size) metric,
          sliceMean (latestRun df run_size) metric with
    | some p, some l => if p = 0 then none else some ((l - p) / p * 100)
    | _, _ => none

/-- Sort a list of metric values ascending: the order statistics that
`Series.quantile` interpolates between. -/
def sortVals (vs : List ℚ) : List ℚ := vs.insertionSort (· ≤ ·)

/-- The linear-interpolation core of `Series.quantile`: inside the sorted
values `x_0 ≤ … ≤ x_(n-1)`, the value at fractional position `h` is
`x_i + (h - i) * (x_(i+1) - x_i)` where `i = ⌊h⌋` (the upper order
statistic falling back to the lower one at the right edge). -/
def interpAt (s : List ℚ) (h : ℚ) : ℚ :=
  let i : Nat := (Int.floor h).toNat
  let lo := s.getD i 0
  let hi := s.getD (i + 1) lo
  lo + (h - (i : ℚ)) * (hi - lo)

/-- `Series.quantile(p)` proper: interpolate at `h = p * (n - 1)` inside
the sorted order statistics. -/
def quantileLin (vs : List ℚ) (p : ℚ) : ℚ :=
  interpAt (sortVals vs) (p * (((sortVals vs).length : ℚ) - 1))

/-- Membership of the exact-timestamp group `t`
(`df.groupby("timestamp")`): the selected metric's values in bucket `t`. -/
def bucketValsTs (df : List MRow) (t : Int) : List ℚ :=
  (df.filter fun r => r.timestamp == t).map (·.value)

/-- Hour of day of a display-timezone instant (`Series.dt.hour`). -/
def hourOf (t : Int) : Nat := ((t.fdiv 3600) % 24).toNat

/-- Membership of the hour-of-day group `h` (`df.groupby("hour")` after
`df["hour"] = df["timestamp"].dt.hour`). -/
def bucketValsHour (df : List MRow) (h : Nat) : List ℚ :=
  (df.filter fun r => hourOf r.timestamp == h).map (·.value)

/-- One output row of the interval aggregation in
`charts.create_median_band_chart`; the `agg` call produces exactly the
columns `median`, `q25` and `q75`. -/
structure BucketStat where
  median : ℚ
  q25 : ℚ
  q75 : ℚ
  deriving Repr, DecidableEq

/-- The statistics the Interval Aggregator computes for the
exact-timestamp bucket `t`. -/
def intervalStat (df : List MRow) (t : Int) : BucketStat :=
  { median := quantileLin (bucketValsTs df t) (1 / 2)
    q25 := quantileLin (bucketValsTs df t) (1 / 4)
    q75 := quantileLin (bucketValsTs df t) (3 / 4) }

/-- One output row of the hour-of-day aggregation in
`charts.create_24h_median_band_chart`; its `agg` call additionally
produces a `count` column. -/
structure HourStat where
  median : ℚ
  q25 : ℚ
  q75 : ℚ
  count : Nat
  deriving Repr, DecidableEq

/-- The statistics the Diurnal Aggregator computes for the hour-of-day
bucket `h`. -/
def diurnalStat (df : List MRow) (h : Nat) : HourStat :=
  { median := quantileLin (bucketValsHour df h) (1 / 2)
    q25 := quantileLin (bucketValsHour df h) (1 / 4)
    q75 := quantileLin (bucketValsHour df h) (3 / 4)
    count := (bucketValsHour df h).length }

/-- The named output columns of the `agg` call in
`create_median_band_chart` (the statistics columns added next to the
`timestamp` key). -/
def intervalAggColumns : List String := ["median", "q25", "q75"]

/-- The named output columns of the `agg` call in
`create_24h_median_band_chart`. -/
def diurnalAggColumns : List String := ["median", "q25", "q75", "count"]

/-- One row of the grouped frame drawn by
`charts.create_endpoint_lines_chart` (after the endpoint column has been
rewritten by `_shorten_endpoint`). -/
structure SeriesPoint where
  bucket : Int
  endpoint : String
  value : ℚ
  deriving Repr, DecidableEq

/-- The distinct `(timestamp, raw endpoint)` group keys of
`df.groupby(["timestamp", "endpoint"])`. -/
def rawGroups (df : List MRow) : List (Int × String) :=
  (df.map fun r => (r.timestamp, r.endpoint)).dedup

/-- Mean of the selected metric over one `(timestamp, raw endpoint)`
group. -/
def groupMean (df : List MRow) (t : Int) (e : String) : ℚ :=
  meanQ ((df.filter fun r => r.timestamp == t && r.endpoint == e).map (·.value))

/-- `create_endpoint_lines_chart`: group by `(timestamp, endpoint)` with
the raw endpoint strings, take the per-group mean, then apply
`_shorten_endpoint` to the endpoint column of the grouped result. -/
def endpointLinesPoints (df : List MRow) : List SeriesPoint :=
  (rawGroups df).map fun g =>
    { bucket := g.1, endpoint := shorten_endpoint g.2, value := groupMean df g.1 g.2 }

/-- The distinct `(hour, raw endpoint)` group keys of
`df.groupby(["hour", "endpoint"])` in `create_24h_endpoint_lines_chart`. -/
def rawGroups24 (df : List MRow) : List (Nat × String) :=
  (df.map fun r => (hourOf r.timestamp, r.endpoint)).dedup

/-- Mean of the selected metric over one `(hour, raw endpoint)` group. -/
def groupMean24 (df : List MRow) (h : Nat) (e : String) : ℚ :=
  meanQ ((df.filter fun r => hourOf r.timestamp == h && r.endpoint == e).map (·.value))

/-- `create_24h_endpoint_lines_chart`: same projection as
`endpointLinesPoints` with the hour-of-day bucket key. -/
def endpointLinesPoints24 (df : List MRow) : List SeriesPoint :=
  (rawGroups24 df).map fun g =>
    { bucket := (g.1 : Int), endpoint := shorten_endpoint g.2,
      value := groupMean24 df g.1 g.2 }

/-- The distinct hours of day present in the input
(`set(df_copy["hour"].unique())` in `charts.render_24h_section`). -/
def presentHours (df : List MRow) : List Nat :=
  (df.map fun r => hourOf r.timestamp).dedup

/-- `charts.render_24h_section`: the missing-hour count. -/
def missing_hours (df : List MRow) : Nat :=
  if df.isEmpty then 24 else 24 - (presentHours df).length

/-- Twelve distinct endpoint labels, for exercising palette cycling. -/
def twelveLabels : List String :=
  ["e0", "e1", "e2", "e3", "e4", "e5", "e6", "e7", "e8", "e9", "e10", "e11"]

/-- Two rows in the same timestamp bucket whose raw endpoint URLs differ
but canonicalize to the same label `a`. -/
def dfSameLabel : List MRow :=
  [⟨0, "https://a.x.com", 10⟩, ⟨0, "https://a.y.com", 20⟩]

/-- A twelve-row measurement set with out-of-order timestamps `1..12`. -/
def df12 : List Row :=
  [⟨3, some 30, some 3, some 13, some 1⟩,
   ⟨1, some 10, some 1, some 11, some 1⟩,
   ⟨2, some 20, some 2, some 12, some 1⟩,
   ⟨6, some 60, some 6, some 16, some 1⟩,
   ⟨4, some 40, some 4, some 14, some 1⟩,
   ⟨5, some 50, some 5, some 15, some 1⟩,
   ⟨9, some 90, some 9, some 19, some 1⟩,
   ⟨7, some 70, some 7, some 17, some 1⟩,
   ⟨8, some 80, some 8, some 18, some 1⟩,
   ⟨12, some 120, some 12, some 22, some 1⟩,
   ⟨10, some 100, some 10, some 20, some 1⟩,
   ⟨11, some 110, some 11, some 21, some 1⟩]

/-- A three-row single-bucket chart dataframe. -/
def dfBucket : List MRow := [⟨0, "e", 1⟩, ⟨0, "e", 2⟩, ⟨0, "e", 4⟩]

/-- Every hour of day the code can compute lies in `0..23`. -/
theorem hourOf_lt (t : Int) : hourOf t < 24 := by
  unfold hourOf
  have h1 : 0 ≤ (t.fdiv 3600) % 24 := Int.emod_nonneg _ (by norm_num)
  have h2 : (t.fdiv 3600) % 24 < 24 := Int.emod_lt_of_pos _ (by norm_num)
  omega

/-- Sorting is invariant under permutation of the input values. -/
theorem sortVals_eq_of_perm {vs ws : List ℚ} (h : List.Perm vs ws) :
    sortVals vs = sortVals ws :=
  List.eq_of_perm_of_sorted
    ((List.perm_insertionSort _ vs).trans (h.trans (List.perm_insertionSort _ ws).symm))
    (List.sorted_insertionSort _ vs) (List.sorted_insertionSort _ ws)

/-- `quantileLin` depends only on the multiset of values. -/
theorem quantileLin_congr {vs ws : List ℚ} (h : List.Perm vs ws) (p : ℚ) :
    quantileLin vs p = quantileLin ws p := by
  unfold quantileLin
  rw [sortVals_eq_of_perm h]

/-- C8: for dataset bounds `min_t ≤ max_t` and any requested instants, the
Window Clamper returns `clamped_s = max req_s min_t` and
`clamped_e = min req_e max_t`, and its validity flag is set exactly when
`clamped_s < clamped_e`; the computation is a total function of the four
instants (also for requests lying entirely outside the data range). -/
theorem clampWindow_spec (min_t max_t req_s req_e : Int) (hb : min_t ≤ max_t) :
    (clampWindow min_t max_t req_s req_e).1 = max req_s min_t ∧
    (clampWindow min_t max_t req_s req_e).2.1 = min req_e max_t ∧
    ((clampWindow min_t max_t req_s req_e).2.2 = true ↔
      (clampWindow min_t max_t req_s req_e).1 <
        (clampWindow min_t max_t req_s req_e).2.1) := by
  refine ⟨rfl, rfl, ?_⟩
  simp [clampWindow]

/-- C8 witness: the spec's example, with instants counted in days from
2023-12-31 (so 2024-01-01 is 1, 2024-01-10 is 10, 2023-12-01 is -30,
2024-01-05 is 5). -/
theorem clampWindow_spec_witness :
    ((1 : Int) ≤ 10 ∧
      ((clampWindow 1 10 (-30) 5).1 = max (-30) 1 ∧
       (clampWindow 1 10 (-30) 5).2.1 = min 5 10 ∧
       ((clampWindow 1 10 (-30) 5).2.2 = true ↔
         (clampWindow 1 10 (-30) 5).1 < (clampWindow 1 10 (-30) 5).2.1))) ∧
    clampWindow 1 10 (-30) 5 = (1, 5, true) ∧
    (clampWindow 1 10 8 8).2.2 = false :=
  ⟨⟨by decide, clampWindow_spec 1 10 (-30) 5 (by decide)⟩, by decide, by decide⟩

/-- C10: the Color Assigner pairs the label at position `i` with the
palette color at position `i mod 10`, produces as many colors as labels
(so the label-to-color pairing is a deterministic function of the ordered
label list), and hands out pairwise distinct palette entries in order
whenever at most 10 labels are given. -/
theorem endpointColors_spec (endpoints : List String) (i : Nat)
    (hi : i < endpoints.length) :
    (endpointColors endpoints).length = endpoints.length ∧
    (endpointColors endpoints).getD i "" = MAGENTA_PALETTE.getD (i % 10) "" ∧
    (endpoints.length ≤ 10 → (endpointColors endpoints).Nodup) := by
  have hpal : MAGENTA_PALETTE.length = 10 := rfl
  unfold endpointColors
  by_cases hn : endpoints.length ≤ MAGENTA_PALETTE.length
  · rw [if_pos hn]
    refine ⟨?_, ?_, ?_⟩
    · rw [List.length_take]; omega
    · have h10 : i < 10 := lt_of_lt_of_le hi (hpal ▸ hn)
      rw [List.getD_eq_getElem?_getD, List.getElem?_take, if_pos hi,
        ← List.getD_eq_getElem?_getD, Nat.mod_eq_of_lt h10]
    · intro _
      exact (by decide : MAGENTA_PALETTE.Nodup).sublist (List.take_sublist _ _)
  · rw [if_neg hn]
    refine ⟨?_, ?_, ?_⟩
    · rw [List.length_map, List.length_range]
    · rw [List.getD_eq_getElem?_getD, List.getElem?_map, List.getElem?_range hi]
      rfl
    · intro hle
      exact absurd (hpal ▸ hle) hn

/-- C10 witness: for 12 distinct labels the label at index 10 receives the
same palette color as the label at index 0. -/
theorem endpointColors_spec_witness :
    (10 < twelveLabels.length ∧
      ((endpointColors twelveLabels).length = twelveLabels.length ∧
       (endpointColors twelveLabels).getD 10 "" = MAGENTA_PALETTE.getD (10 % 10) "" ∧
       (twelveLabels.length ≤ 10 → (endpointColors twelveLabels).Nodup))) ∧
    (endpointColors twelveLabels).getD 10 "" = (endpointColors twelveLabels).getD 0 "" :=
  ⟨⟨by decide, endpointColors_spec twelveLabels 10 (by decide)⟩, by decide⟩

/-- C4: the Diurnal Aggregator's missing-hour count plus the number of
distinct hours of day present in the input is always 24, and on empty
input the missing-hour count is 24. -/
theorem missing_hours_spec :
    (∀ df : List MRow, missing_hours df + (presentHours df).length = 24) ∧
    missing_hours ([] : List MRow) = 24 := by
  refine ⟨?_, by decide⟩
  intro df
  have hle : (presentHours df).length ≤ 24 := by
    have hnd : (presentHours df).Nodup := List.nodup_dedup _
    have hmem : ∀ x ∈ (presentHours df).toFinset, x ∈ Finset.range 24 := by
      intro x hx
      have hx' := List.mem_toFinset.mp hx
      obtain ⟨r, _, rfl⟩ := List.mem_map.mp (List.mem_dedup.mp hx')
      exact Finset.mem_range.mpr (hourOf_lt r.timestamp)
    calc (presentHours df).length = (presentHours df).toFinset.card :=
          (List.toFinset_card_of_nodup hnd).symm
      _ ≤ (Finset.range 24).card := Finset.card_le_card hmem
      _ = 24 := Finset.card_range 24
  unfold missing_hours
  by_cases hdf : df.isEmpty
  · have : df = [] := List.isEmpty_iff.mp hdf
    subst this
    simp [presentHours]
  · rw [if_neg hdf]
    omega

/-- C5 counterexample: a row whose timestamp is exactly the applied end
instant is kept by the filter building `chart_df` (the claim says such a
row is excluded). -/
theorem chart_df_end_included :
    (⟨5, "e", 1⟩ : MRow) ∈ chart_df [⟨5, "e", 1⟩] 0 5 := by decide

/-- C5 amended: the applied chart window is the closed interval
`[start, end]`: a row is kept exactly when `start ≤ timestamp` and
`timestamp ≤ end`, so rows at the start instant and rows at the end
instant are both included. -/
theorem chart_df_spec (df : List MRow) (s e : Int) (r : MRow) :
    r ∈ chart_df df s e ↔ r ∈ df ∧ s ≤ r.timestamp ∧ r.timestamp ≤ e := by
  simp [chart_df, List.mem_filter]

/-- C6 counterexample: a one-row input makes the timestamp bucket `0`
non-empty, yet the `agg` of `create_median_band_chart` produces no `count`
column, so the Interval Aggregator's per-bucket record lacks the fourth
field the claim requires. -/
theorem intervalAgg_no_count :
    bucketValsTs [⟨0, "e", 1⟩] 0 ≠ [] ∧ "count" ∉ intervalAggColumns := by
  refine ⟨by decide, by decide⟩

/-- C6 amended: on every non-empty exact-timestamp bucket the Interval
Aggregator's record carries exactly the three fields `median`, `q25` and
`q75` (each a linearly interpolated quantile of the bucket's values, and
each depending only on the multiset of those values); the `count` column
exists only in the Diurnal Aggregator's output. -/
theorem intervalStat_spec (df : List MRow) (t : Int)
    (hne : bucketValsTs df t ≠ []) :
    intervalAggColumns = ["median", "q25", "q75"] ∧
    (intervalStat df t).median = quantileLin (bucketValsTs df t) (1 / 2) ∧
    (intervalStat df t).q25 = quantileLin (bucketValsTs df t) (1 / 4) ∧
    (intervalStat df t).q75 = quantileLin (bucketValsTs df t) (3 / 4) ∧
    "count" ∈ diurnalAggColumns ∧
    ∀ df' : List MRow, List.Perm (bucketValsTs df' t) (bucketValsTs df t) →
      intervalStat df' t = intervalStat df t := by
  refine ⟨rfl, rfl, rfl, rfl, by decide, ?_⟩
  intro df' hperm
  unfold intervalStat
  rw [quantileLin_congr hperm, quantileLin_congr hperm, quantileLin_congr hperm]

/-- C6 witness: the amended statement holds at a concrete one-row input. -/
theorem intervalStat_spec_witness :
    bucketValsTs [⟨0, "e", 2⟩] 0 ≠ [] ∧ intervalAggColumns = ["median", "q25", "q75"] :=
  ⟨by decide, (intervalStat_spec [⟨0, "e", 2⟩] 0 (by decide)).1⟩

/-- C9 counterexample: on the schemeless input `"speed.example.com"` the
parse succeeds with an absent (empty) network-location, yet the
canonicalizer does not return the raw string unchanged as the claim
requires: it returns `"speed"`, the first dot-segment of the raw
string. -/
theorem shorten_endpoint_counterexample :
    urlNetloc "speed.example.com" = some "" ∧
    shorten_endpoint "speed.example.com" = "speed" ∧
    shorten_endpoint "speed.example.com" ≠ "speed.example.com" :=
  ⟨by decide, by decide, by decide⟩

/-- C9 amended: the canonicalizer is a total function; when parsing
raises (an unbalanced-bracket netloc such as `"http://[abc"`) it returns
the raw input string unchanged; otherwise, with
`host = netloc if netloc non-empty else the raw string` (the code's
`parsed.netloc or url`), it returns the first dot-separated segment of
`host` when that segment is non-empty and falls back to the raw input
string unchanged when that segment is empty; in particular
`"https://custom-t0.speed.example.com"` maps to `"custom-t0"`,
`"not a url"` maps to `"not a url"`, and `""` maps to `""`. -/
theorem shorten_endpoint_spec (url : String) :
    (urlNetloc url = none → shorten_endpoint url = url) ∧
    (∀ nl, urlNetloc url = some nl →
      (firstDotSegment (if nl = "" then url else nl) ≠ "" →
        shorten_endpoint url = firstDotSegment (if nl = "" then url else nl)) ∧
      (firstDotSegment (if nl = "" then url else nl) = "" →
        shorten_endpoint url = url)) ∧
    shorten_endpoint "http://[abc" = "http://[abc" ∧
    shorten_endpoint "https://custom-t0.speed.example.com" = "custom-t0" ∧
    shorten_endpoint "not a url" = "not a url" ∧
    shorten_endpoint "" = "" := by
  refine ⟨?_, ?_, by decide, by decide, by decide, by decide⟩
  · intro h
    simp only [shorten_endpoint]
    rw [h]
  · intro nl hnl
    refine ⟨?_, ?_⟩
    · intro h
      simp only [shorten_endpoint]
      rw [hnl]
      simp only []
      rw [if_neg h]
    · intro h
      simp only [shorten_endpoint]
      rw [hnl]
      simp only []
      rw [if_pos h]

/-- C7 counterexample: two rows in timestamp bucket 0 whose raw endpoint
URLs differ but canonicalize to the same label `"a"` yield two series
points keyed `(0, "a")` carrying the two raw-group means 10 and 20 — not
the single point with the pooled mean 15 the claim requires. -/
theorem endpointLines_counterexample :
    (endpointLinesPoints dfSameLabel).map (fun p => (p.bucket, p.endpoint)) =
      [(0, "a"), (0, "a")] ∧
    (endpointLinesPoints dfSameLabel).map (fun p => p.value) =
      [meanQ [10], meanQ [20]] ∧
    meanQ [10] = 10 ∧ meanQ [20] = 20 ∧ meanQ [10, 20] = 15 :=
  ⟨by decide, rfl, by norm_num [meanQ], by norm_num [meanQ], by norm_num [meanQ]⟩

/-- C7 amended: the per-bucket-per-endpoint projection groups rows by
`(bucket, raw endpoint)` and canonicalizes the label only after grouping:
each distinct raw pair yields exactly one series point whose value is the
arithmetic mean of the raw group and whose label is the canonicalized raw
endpoint, so raw endpoints sharing a canonical label keep separate points
(the same holds for the hour-of-day variant). -/
theorem endpointLinesPoints_spec (df : List MRow) (t : Int) (e : String)
    (hg : (t, e) ∈ rawGroups df) :
    (⟨t, shorten_endpoint e, groupMean df t e⟩ : SeriesPoint) ∈
      endpointLinesPoints df ∧
    (endpointLinesPoints df).length = (rawGroups df).length ∧
    (∀ p ∈ endpointLinesPoints df, ∃ g ∈ rawGroups df,
      p = ⟨g.1, shorten_endpoint g.2, groupMean df g.1 g.2⟩) ∧
    (∀ t2 e2, ((t2, e2) ∈ rawGroups df ↔
      ∃ r ∈ df, r.timestamp = t2 ∧ r.endpoint = e2)) ∧
    (∀ h2 e2, (h2, e2) ∈ rawGroups24 df →
      (⟨(h2 : Int), shorten_endpoint e2, groupMean24 df h2 e2⟩ : SeriesPoint) ∈
        endpointLinesPoints24 df) := by
  refine ⟨?_, ?_, ?_, ?_, ?_⟩
  · exact List.mem_map.mpr ⟨(t, e), hg, rfl⟩
  · exact List.length_map _ _
  · intro p hp
    obtain ⟨g, hg', hpe⟩ := List.mem_map.mp hp
    exact ⟨g, hg', hpe.symm⟩
  · intro t2 e2
    simp [rawGroups, List.mem_dedup, List.mem_map, Prod.mk.injEq]
  · intro h2 e2 hg2
    exact List.mem_map.mpr ⟨(h2, e2), hg2, rfl⟩

/-- C1: for every non-empty measurement set and run size, the Run
Summarizer sorts by timestamp ascending (a sorted permutation of the
input), clamps the run size into `[1, row count]`, takes the latest run
as exactly the last `n` sorted rows with the slice's maximum timestamp as
its representative time, and takes the previous run as exactly the `n`
rows immediately preceding the latest run when at least `2n` rows exist
(so the previous and latest runs together are the last `2n` sorted rows)
and as the empty slice otherwise. -/
theorem runSummarizer_spec (df : List Row) (N : Nat) (hdf : df ≠ []) :
    1 ≤ clampRun N (sortRows df).length ∧
    clampRun N (sortRows df).length ≤ df.length ∧
    (sortRows df).Sorted tsLE ∧
    List.Perm (sortRows df) df ∧
    latestRun df N =
      (sortRows df).drop
        ((sortRows df).length - clampRun N (sortRows df).length) ∧
    (latestRun df N).length = clampRun N (sortRows df).length ∧
    latestTimestamp df N = maxTs (latestRun df N) ∧
    (2 * clampRun N (sortRows df).length ≤ df.length →
      previousRun df N ++ latestRun df N =
        (sortRows df).drop
          ((sortRows df).length - 2 * clampRun N (sortRows df).length) ∧
      (previousRun df N).length = clampRun N (sortRows df).length) ∧
    (df.length < 2 * clampRun N (sortRows df).length → previousRun df N = []) := by
  have hlen : (sortRows df).length = df.length := List.length_insertionSort _ _
  have hpos : 0 < df.length := List.length_pos.mpr hdf
  have hn1 : 1 ≤ clampRun N (sortRows df).length :=
    le_min (le_max_right N 1) (hlen ▸ hpos)
  have hnle : clampRun N (sortRows df).length ≤ (sortRows df).length :=
    min_le_right _ _
  refine ⟨hn1, hlen ▸ hnle, List.sorted_insertionSort _ df,
    List.perm_insertionSort _ df, rfl, ?_, rfl, ?_, ?_⟩
  · unfold latestRun
    rw [List.length_drop]
    omega
  · intro h2n
    have h2n' : 2 * clampRun N (sortRows df).length ≤ (sortRows df).length := by
      omega
    constructor
    · unfold previousRun latestRun
      rw [if_pos h2n']
      have hdd :
          (sortRows df).drop
              ((sortRows df).length - clampRun N (sortRows df).length) =
            ((sortRows df).drop
                ((sortRows df).length -
                  2 * clampRun N (sortRows df).length)).drop
              (clampRun N (sortRows df).length) := by
        rw [List.drop_drop]
        congr 1
        omega
      rw [hdd, List.take_append_drop]
    · unfold previousRun
      rw [if_pos h2n', List.length_take, List.length_drop]
      omega
  · intro hlt
    unfold previousRun
    rw [if_neg (by omega)]

/-- C1 witness: a concrete 12-row out-of-order set with run size 5: the
latest run is the sorted rows 8–12 and the previous run the sorted rows
3–7 (1-indexed, identified here by their timestamps `1..12`). -/
theorem runSummarizer_spec_witness :
    (df12 ≠ [] ∧ 1 ≤ clampRun 5 (sortRows df12).length) ∧
    clampRun 5 (sortRows df12).length = 5 ∧
    (latestRun df12 5).map Row.timestamp = [8, 9, 10, 11, 12] ∧
    (previousRun df12 5).map Row.timestamp = [3, 4, 5, 6, 7] ∧
    latestTimestamp df12 5 = 12 :=
  ⟨⟨by decide, (runSummarizer_spec df12 5 (by decide)).1⟩,
   by decide, by decide, by decide, by decide⟩

/-- C2: the run-over-run percent change of a metric is reported exactly
when the previous run exists, both slice means are present, and the
previous mean is non-zero, and then it equals
`(latest_mean − previous_mean) / previous_mean × 100`; in every other
case `_percent_diff` yields the explicit "no comparison" value `none`
(never a numeric 0 and, being a total function, never an exception). -/
theorem percent_diff_spec (df : List Row) (N : Nat) (metric : Row → Option ℚ)
    (v : ℚ) :
    percent_diff df N metric = some v ↔
      previousRun df N ≠ [] ∧
      ∃ p l, sliceMean (previousRun df N) metric = some p ∧
        sliceMean (latestRun df N) metric = some l ∧ p ≠ 0 ∧
        v = (l - p) / p * 100 := by
  unfold percent_diff
  by_cases hpe : (previousRun df N).isEmpty
  · rw [if_pos hpe]
    simp [List.isEmpty_iff.mp hpe]
  · rw [if_neg hpe]
    have hne : previousRun df N ≠ [] := fun h => hpe (by simp [h])
    rcases h1 : sliceMean (previousRun df N) metric with _ | p
    · simp [hne]
    · rcases h2 : sliceMean (latestRun df N) metric with _ | l
      · simp [hne]
      · by_cases hp0 : p = 0
        · simp [hne, hp0]
        · simp only [hp0, if_false, Option.some.injEq]
          constructor
          · intro hv
            exact ⟨hne, p, l, rfl, rfl, hp0, hv.symm⟩
          · rintro ⟨_, p2, l2, hp2, hl2, _, hv⟩
            obtain rfl : p2 = p := Option.some.injEq _ _ ▸ hp2.symm
            obtain rfl : l2 = l := Option.some.injEq _ _ ▸ hl2.symm
            exact hv.symm


theorem endpointLinesPoints_spec_witness :
    ((0 : Int), "https://a.x.com") ∈ rawGroups dfSameLabel ∧
    (⟨0, shorten_endpoint "https://a.x.com",
        groupMean dfSameLabel 0 "https://a.x.com"⟩ : SeriesPoint) ∈
      endpointLinesPoints dfSameLabel :=
  ⟨by decide,
   (endpointLinesPoints_spec dfSameLabel 0 "https://a.x.com" (by decide)).1⟩

/-- In a sorted list the entry at a smaller index is at most the entry at
a larger in-range index. -/
theorem sorted_getD_mono {s : List ℚ} (hs : s.Sorted (· ≤ ·)) {i j : Nat}
    (hij : i ≤ j) (hj : j < s.length) : s.getD i 0 ≤ s.getD j 0 := by
  have hi : i < s.length := lt_of_le_of_lt hij hj
  rw [List.getD_eq_getElem s 0 hi, List.getD_eq_getElem s 0 hj]
  exact hs.rel_get_of_le hij

/-- Inside a sorted list, the interpolated value at position `h` lies
between the two order statistics it interpolates (which are themselves in
order). -/
theorem interpAt_lo_hi {s : List ℚ} (hs : s.Sorted (· ≤ ·)) {h : ℚ}
    (h0 : 0 ≤ h) (hub : h ≤ (s.length : ℚ) - 1) :
    s.getD (Int.floor h).toNat 0 ≤
      s.getD ((Int.floor h).toNat + 1) (s.getD (Int.floor h).toNat 0) ∧
    s.getD (Int.floor h).toNat 0 ≤ interpAt s h ∧
    interpAt s h ≤
      s.getD ((Int.floor h).toNat + 1) (s.getD (Int.floor h).toNat 0) := by
  have hfl0 : 0 ≤ Int.floor h := Int.le_floor.mpr (by exact_mod_cast h0)
  have hiz : ((Int.floor h).toNat : ℤ) = Int.floor h := Int.toNat_of_nonneg hfl0
  have hiq : (((Int.floor h).toNat : Nat) : ℚ) = (Int.floor h : ℚ) := by
    exact_mod_cast congrArg (fun z : ℤ => (z : ℚ)) hiz
  have hle : (((Int.floor h).toNat : Nat) : ℚ) ≤ h := by
    rw [hiq]; exact Int.floor_le h
  have hlt : h < (((Int.floor h).toNat : Nat) : ℚ) + 1 := by
    rw [hiq]; exact Int.lt_floor_add_one h
  have hlohi : s.getD (Int.floor h).toNat 0 ≤
      s.getD ((Int.floor h).toNat + 1) (s.getD (Int.floor h).toNat 0) := by
    rcases lt_or_ge ((Int.floor h).toNat + 1) s.length with hin | hout
    · rw [List.getD_eq_getElem s _ hin,
        List.getD_eq_getElem s 0 (by omega : (Int.floor h).toNat < s.length)]
      exact hs.rel_get_of_le (Nat.le_succ _)
    · rw [List.getD_eq_default s _ hout]
  refine ⟨hlohi, ?_, ?_⟩
  · simp only [interpAt]
    have hm : 0 ≤ (h - (((Int.floor h).toNat : Nat) : ℚ)) *
        (s.getD ((Int.floor h).toNat + 1) (s.getD (Int.floor h).toNat 0) -
          s.getD (Int.floor h).toNat 0) :=
      mul_nonneg (by linarith) (by linarith)
    linarith
  · simp only [interpAt]
    have hm : (h - (((Int.floor h).toNat : Nat) : ℚ)) *
        (s.getD ((Int.floor h).toNat + 1) (s.getD (Int.floor h).toNat 0) -
          s.getD (Int.floor h).toNat 0) ≤
        s.getD ((Int.floor h).toNat + 1) (s.getD (Int.floor h).toNat 0) -
          s.getD (Int.floor h).toNat 0 :=
      mul_le_of_le_one_left (by linarith) (by linarith)
    linarith

/-- Linear interpolation inside a sorted list is monotone in the
fractional position. -/
theorem interpAt_mono {s : List ℚ} (hs : s.Sorted (· ≤ ·)) {g1 g2 : ℚ}
    (h0 : 0 ≤ g1) (h12 : g1 ≤ g2) (hub : g2 ≤ (s.length : ℚ) - 1) :
    interpAt s g1 ≤ interpAt s g2 := by
  have h02 : 0 ≤ g2 := le_trans h0 h12
  have hub1 : g1 ≤ (s.length : ℚ) - 1 := le_trans h12 hub
  obtain ⟨hlohi1, hlo1, hhi1⟩ := interpAt_lo_hi hs h0 hub1
  obtain ⟨hlohi2, hlo2, hhi2⟩ := interpAt_lo_hi hs h02 hub
  have hfl : Int.floor g1 ≤ Int.floor g2 := Int.floor_mono h12
  have hfl0 : 0 ≤ Int.floor g1 := Int.le_floor.mpr (by exact_mod_cast h0)
  rcases eq_or_lt_of_le (Int.toNat_le_toNat hfl) with he | hltn
  · simp only [interpAt] at hlohi2 ⊢
    rw [he]
    have hd0 : (0 : ℚ) ≤
        s.getD ((Int.floor g2).toNat + 1) (s.getD (Int.floor g2).toNat 0) -
          s.getD (Int.floor g2).toNat 0 := by linarith
    have hiq1 : (((Int.floor g1).toNat : Nat) : ℚ) =
        (((Int.floor g2).toNat : Nat) : ℚ) := by rw [he]
    have hmul := mul_le_mul_of_nonneg_right
      (sub_le_sub_right h12 (((Int.floor g2).toNat : Nat) : ℚ)) hd0
    linarith
  · have hfl02 : 0 ≤ Int.floor g2 := le_trans hfl0 hfl
    have hz : Int.floor g2 ≤ (s.length : ℤ) - 1 := by
      have hq : (Int.floor g2 : ℚ) ≤ (s.length : ℚ) - 1 :=
        le_trans (Int.floor_le g2) hub
      exact_mod_cast hq
    have hi2lt : (Int.floor g2).toNat < s.length := by omega
    have hi1lt : (Int.floor g1).toNat + 1 < s.length := by omega
    calc interpAt s g1 ≤
        s.getD ((Int.floor g1).toNat + 1) (s.getD (Int.floor g1).toNat 0) := hhi1
      _ ≤ s.getD (Int.floor g2).toNat 0 := by
          rw [List.getD_eq_getElem s _ hi1lt,
            ← List.getD_eq_getElem s 0 hi1lt]
          exact sorted_getD_mono hs (by omega) hi2lt
      _ ≤ interpAt s g2 := hlo2

/-- `Series.quantile` is monotone in the requested quantile `p` on any
fixed value list. -/
theorem quantileLin_mono (vs : List ℚ) (hne : vs ≠ []) {p q : ℚ}
    (hp : 0 ≤ p) (hpq : p ≤ q) (hq : q ≤ 1) :
    quantileLin vs p ≤ quantileLin vs q := by
  unfold quantileLin
  have hlen : (sortVals vs).length = vs.length := List.length_insertionSort _ _
  have hpos : 0 < vs.length := List.length_pos.mpr hne
  have hn1 : (1 : ℚ) ≤ ((sortVals vs).length : ℚ) := by
    rw [hlen]; exact_mod_cast hpos
  apply interpAt_mono (List.sorted_insertionSort _ vs)
  · exact mul_nonneg hp (by linarith)
  · exact mul_le_mul_of_nonneg_right hpq (by linarith)
  · calc q * (((sortVals vs).length : ℚ) - 1) ≤
        1 * (((sortVals vs).length : ℚ) - 1) :=
          mul_le_mul_of_nonneg_right hq (by linarith)
      _ = ((sortVals vs).length : ℚ) - 1 := one_mul _

/-- C3: every non-empty bucket of the Interval Aggregator (grouping by
exact timestamp) and of the Diurnal Aggregator (grouping by hour of day)
satisfies `q25 ≤ median ≤ q75` for its linearly interpolated quantile
statistics. -/
theorem bucket_quantile_invariant (df : List MRow) (t : Int) (hr : Nat)
    (ht : bucketValsTs df t ≠ []) (hh : bucketValsHour df hr ≠ []) :
    ((intervalStat df t).q25 ≤ (intervalStat df t).median ∧
     (intervalStat df t).median ≤ (intervalStat df t).q75) ∧
    ((diurnalStat df hr).q25 ≤ (diurnalStat df hr).median ∧
     (diurnalStat df hr).median ≤ (diurnalStat df hr).q75) := by
  refine ⟨⟨?_, ?_⟩, ⟨?_, ?_⟩⟩
  · exact quantileLin_mono _ ht (by norm_num) (by norm_num) (by norm_num)
  · exact quantileLin_mono _ ht (by norm_num) (by norm_num) (by norm_num)
  · exact quantileLin_mono _ hh (by norm_num) (by norm_num) (by norm_num)
  · exact quantileLin_mono _ hh (by norm_num) (by norm_num) (by norm_num)

/-- C3 witness: the invariant at a concrete three-row bucket (timestamp
bucket 0 and hour-of-day bucket 0). -/
theorem bucket_quantile_invariant_witness :
    bucketValsTs dfBucket 0 ≠ [] ∧ bucketValsHour dfBucket 0 ≠ [] ∧
    (((intervalStat dfBucket 0).q25 ≤ (intervalStat dfBucket 0).median ∧
      (intervalStat dfBucket 0).median ≤ (intervalStat dfBucket 0).q75) ∧
     ((diurnalStat dfBucket 0).q25 ≤ (diurnalStat dfBucket 0).median ∧
      (diurnalStat dfBucket 0).median ≤ (diurnalStat dfBucket 0).q75)) :=
  ⟨by decide, by decide,
   bucket_quantile_invariant dfBucket 0 0 (by decide) (by decide)⟩

end Netzbremse
